import Mathlib

/-!
A verification model of `tn_compose_cli.py`.

The script's components are embedded shallowly:

* documents parsed from YAML/JSON files are modelled by the inductive `Doc`
  (nested mappings / sequences / scalars);
* `canonicalize`, `json_equivalent` and `json.dumps(·, sort_keys=True)` are
  modelled as pure functions on `Doc`;
* `TNSession.call` is modelled against an oracle giving the outcome of each
  transport attempt, recording the session events (sleep/close/reopen) it
  performs;
* `watch_job` is modelled against the list of job records successive polls
  return, producing the list of print events and the returned record;
* `update_app`, `deploy_app`, `validate_truenas` and the `main` body are
  modelled as trace-producing functions over oracles for the RPC results.
-/

namespace TnCompose

/-- Document tree as produced by `validate_and_normalize` (yaml/json parse):
nested mappings, sequences and scalars.  Mappings are association lists in
insertion order; Python dicts never hold duplicate keys. -/
inductive Doc where
  | null : Doc
  | bool : Bool → Doc
  | int : Int → Doc
  | str : String → Doc
  | arr : List Doc → Doc
  | obj : List (String × Doc) → Doc

mutual

/-- Structural equality of documents, modelling Python `==` on the values the
script compares.  (`json_equivalent` only compares `canonicalize` outputs,
whose mappings are key-sorted at every level, so ordered comparison of the
association lists agrees with Python's order-insensitive dict equality
there.  Python's numeric conflation `True == 1` is not modelled: scalars of
different kinds compare unequal.) -/
def docEq : Doc → Doc → Bool
  | .null, .null => true
  | .bool a, .bool b => a == b
  | .int a, .int b => a == b
  | .str a, .str b => a == b
  | .arr xs, .arr ys => docEqList xs ys
  | .obj a, .obj b => docEqKvs a b
  | _, _ => false

def docEqList : List Doc → List Doc → Bool
  | [], [] => true
  | x :: xs, y :: ys => docEq x y && docEqList xs ys
  | _, _ => false

def docEqKvs : List (String × Doc) → List (String × Doc) → Bool
  | [], [] => true
  | (k, v) :: xs, (k', v') :: ys => k == k' && docEq v v' && docEqKvs xs ys
  | _, _ => false

end

/-- Stable insertion into a list: the new element goes before the first
element it compares `le` to, hence before later ties. -/
def orderedInsert (le : α → α → Bool) (a : α) : List α → List α
  | [] => [a]
  | b :: l => if le a b then a :: b :: l else b :: orderedInsert le a l

/-- Stable insertion sort.  Python's `sorted` is a stable sort, and for a
total preorder every stable sort computes the same list, so this models
`sorted` exactly. -/
def insertionSortB (le : α → α → Bool) : List α → List α
  | [] => []
  | a :: l => orderedInsert le a (insertionSortB le l)

theorem orderedInsert_perm (le : α → α → Bool) (a : α) (l : List α) :
    (orderedInsert le a l).Perm (a :: l) := by
  induction l with
  | nil => simp [orderedInsert]
  | cons b l ih =>
      by_cases h : le a b
      · simp [orderedInsert, h]
      · simp only [orderedInsert, h, if_neg]
        exact ((ih.cons b).trans (List.Perm.swap a b l))

theorem insertionSortB_perm (le : α → α → Bool) (l : List α) :
    (insertionSortB le l).Perm l := by
  induction l with
  | nil => simp [insertionSortB]
  | cons a l ih =>
      exact (orderedInsert_perm le a (insertionSortB le l)).trans (ih.cons a)

/-- Lowercase hex digit, as `json.dumps` emits in `\uXXXX` escapes. -/
def hexDigit (n : Nat) : Char := Char.ofNat (if n < 10 then 48 + n else 87 + n)

/-- One `\uXXXX` escape. -/
def uEsc (n : Nat) : String :=
  String.mk [Char.ofNat 92, 'u', hexDigit (n / 4096 % 16), hexDigit (n / 256 % 16),
             hexDigit (n / 16 % 16), hexDigit (n % 16)]

/-- Escape one character the way Python `json.dumps` (default
`ensure_ascii=True`) renders string contents. -/
def escapeChar (c : Char) : String :=
  if c = Char.ofNat 34 then "\\\"" else
  if c = Char.ofNat 92 then "\\\\" else
  if c = Char.ofNat 10 then "\\n" else
  if c = Char.ofNat 9 then "\\t" else
  if c = Char.ofNat 13 then "\\r" else
  if c = Char.ofNat 8 then "\\b" else
  if c = Char.ofNat 12 then "\\f" else
  if 32 ≤ c.toNat ∧ c.toNat ≤ 126 then String.singleton c else
  if c.toNat < 65536 then uEsc c.toNat else
  uEsc (55296 + (c.toNat - 65536) / 1024) ++ uEsc (56320 + (c.toNat - 65536) % 1024)

/-- Render a JSON string literal. -/
def dumpsStr (s : String) : String :=
  String.singleton (Char.ofNat 34) ++ String.join (s.data.map escapeChar) ++
    String.singleton (Char.ofNat 34)

/-- Join with Python's default item separator `", "`. -/
def joinComma : List String → String
  | [] => ""
  | [s] => s
  | s :: rest => s ++ ", " ++ joinComma rest

/-- Code-point lexicographic string order, as Python compares `str` values. -/
def charsLE : List Char → List Char → Bool
  | [], _ => true
  | _ :: _, [] => false
  | a :: as, b :: bs =>
      if a.toNat < b.toNat then true
      else if b.toNat < a.toNat then false
      else charsLE as bs

def strLE (a b : String) : Bool := charsLE a.data b.data

/-- Order on already-rendered `(key, rendered value)` pairs by key.  Python's
`sorted(d.items())` compares the `(key, value)` tuples, but dict keys are
unique so only the keys are ever compared. -/
def keyLE (a b : String × String) : Bool := strLE a.1 b.1

mutual

/-- Model of `json.dumps(v, sort_keys=True)` (default separators
`", "` / `": "`), the serialization `canonicalize` sorts lists by.  Mapping
items are rendered and then stable-sorted by key; since rendering an item
does not depend on its position, this equals Python's sort-then-render. -/
def dumps : Doc → String
  | .null => "null"
  | .bool b => if b then "true" else "false"
  | .int n => toString n
  | .str s => dumpsStr s
  | .arr xs => "[" ++ joinComma (dumpsList xs) ++ "]"
  | .obj kvs =>
      "\x7b" ++
        joinComma ((insertionSortB keyLE (dumpsKvs kvs)).map
          (fun kv => dumpsStr kv.1 ++ ": " ++ kv.2)) ++
        "\x7d"

def dumpsList : List Doc → List String
  | [] => []
  | x :: xs => dumps x :: dumpsList xs

def dumpsKvs : List (String × Doc) → List (String × String)
  | [] => []
  | (k, v) :: rest => (k, dumps v) :: dumpsKvs rest

end

/-- Order on `(sort key, canonicalized element)` pairs produced by
`decorate`: compare the `json.dumps` serializations of the original
elements. -/
def sortKeyLE (a b : String × Doc) : Bool := strLE a.1 b.1

/-- Order on `(key, value)` mapping entries by key string. -/
def docKeyLE (a b : String × Doc) : Bool := strLE a.1 b.1

mutual

/-- Model of `canonicalize` from the script:

* mappings: keys sorted (Python iterates `sorted(obj.keys())`), values
  canonicalized;
* sequences: elements sorted by `json.dumps(x, sort_keys=True)` of the
  ORIGINAL element, then each element canonicalized (the `try` never falls
  back here because every `Doc` serializes);
* scalars returned unchanged.

Sequences are handled decorate-sort-undecorate: each element is paired with
its serialization (sort key) and its canonicalized form, the pairs are
stable-sorted by key, and the canonicalized forms are extracted.  A stable
sort permutes by the key sequence alone, so this is exactly
`[canonicalize(x) for x in sorted(obj, key=...)]`.  Mapping entries likewise:
values are canonicalized and the entries then stable-sorted by key, which
equals iterating `sorted(obj.keys())` because canonicalizing a value does not
depend on its position. -/
def canonicalize : Doc → Doc
  | .null => .null
  | .bool b => .bool b
  | .int n => .int n
  | .str s => .str s
  | .arr xs => .arr ((insertionSortB sortKeyLE (decorate xs)).map Prod.snd)
  | .obj kvs => .obj (insertionSortB docKeyLE (canonKvs kvs))

/-- Pair each list element with its `dumps` sort key and canonical form. -/
def decorate : List Doc → List (String × Doc)
  | [] => []
  | x :: xs => (dumps x, canonicalize x) :: decorate xs

/-- Canonicalize the values of mapping entries, keeping entry order. -/
def canonKvs : List (String × Doc) → List (String × Doc)
  | [] => []
  | (k, v) :: rest => (k, canonicalize v) :: canonKvs rest

end

/-- Model of `json_equivalent`: structural equality of canonical forms. -/
def json_equivalent (a b : Doc) : Bool := docEq (canonicalize a) (canonicalize b)

theorem decorate_eq_map (xs : List Doc) :
    decorate xs = xs.map (fun x => (dumps x, canonicalize x)) := by
  induction xs with
  | nil => rfl
  | cons x xs ih => simp [decorate, ih]

theorem canonKvs_eq_map (kvs : List (String × Doc)) :
    canonKvs kvs = kvs.map (fun kv => (kv.1, canonicalize kv.2)) := by
  induction kvs with
  | nil => rfl
  | cons kv kvs ih => cases kv; simp [canonKvs, ih]

/-- Check whether `pat` starts the list `l`. -/
def leadsWith : List Char → List Char → Bool
  | [], _ => true
  | _ :: _, [] => false
  | a :: as, b :: bs => a == b && leadsWith as bs

def containsChars (pat : List Char) : List Char → Bool
  | [] => pat.isEmpty
  | c :: rest => leadsWith pat (c :: rest) || containsChars pat rest

/-- Python `needle in hay` on strings. -/
def strContains (hay needle : String) : Bool := containsChars needle.data hay.data

/-- Python `str.lower()` (the exception texts involved are ASCII). -/
def pyLower (s : String) : String := String.mk (s.data.map Char.toLower)

/-- The transient-error test of `TNSession.call`:
`"rate" in msg or "ratelimit" in msg or "broken pipe" in msg or "closed" in msg`
on the lowercased exception text. -/
def isTransient (msg : String) : Bool :=
  let m := pyLower msg
  strContains m "rate" || strContains m "ratelimit" || strContains m "broken pipe" ||
    strContains m "closed"

/-- Outcome of one underlying transport attempt (`self._c.call(...)`):
a result or a raised exception carrying its message. -/
inductive RpcOutcome (α : Type) where
  | ok (v : α)
  | err (msg : String)

/-- How `TNSession.call` finishes: a normal return (Python returns `None`,
modelled `ret none`, when the retry loop falls through) or a propagated
exception. -/
inductive CallResult (α : Type) where
  | ret (v : Option α)
  | raise (msg : String)

/-- Session-level side effects performed by `TNSession.call`, in order. -/
inductive SessionEv where
  | ensureOpen
  | rpcAttempt (i : Nat)
  | sleep (attempt : Nat)
  | close
  | reopen

/-- The `for attempt in range(_retries + 1)` loop of `TNSession.call`:
`attempt` is the current index, the second argument the remaining
iterations.  A transient failure sleeps `_backoff * (attempt + 1)`, closes
and reopens the session and continues; a non-transient failure re-raises;
when the loop exhausts, Python falls off the `for` and returns `None`. -/
def callLoop (outcome : Nat → RpcOutcome α) (attempt : Nat) :
    Nat → CallResult α × List SessionEv
  | 0 => (.ret none, [])
  | rem + 1 =>
    match outcome attempt with
    | .ok v => (.ret (some v), [.rpcAttempt attempt])
    | .err m =>
        if isTransient m then
          let next := callLoop outcome (attempt + 1) rem
          (next.1, [.rpcAttempt attempt, .sleep attempt, .close, .reopen] ++ next.2)
        else
          (.raise m, [.rpcAttempt attempt])

/-- Model of `TNSession.call(method, *params, _retries, _backoff)`: ensure the
session is open, then run the retry loop.  `outcome i` is what the transport
does on attempt `i`. -/
def TNSession.call (outcome : Nat → RpcOutcome α) (retries : Nat) :
    CallResult α × List SessionEv :=
  let r := callLoop outcome 0 (retries + 1)
  (r.1, SessionEv.ensureOpen :: r.2)

/-- One job record as returned by a `core.get_jobs` poll, restricted to the
fields `watch_job` reads.  `percent` is modelled as an integer. -/
structure JobRec where
  state : Option String
  percent : Option Int
  description : Option String
  logsExcerpt : Option String
  error : Option String
  resultEncodingError : Option String

/-- `state in ("SUCCESS", "FAILED", "ABORTED")`. -/
def isTerminal (j : JobRec) : Bool :=
  j.state == some "SUCCESS" || j.state == some "FAILED" || j.state == some "ABORTED"

/-- Python `a or b` on optional strings (`None` and `""` are falsy). -/
def pyOrStr : Option String → Option String → Option String
  | some s, b => if s = "" then b else some s
  | none, b => b

/-- Lines printed by `watch_job`, in structured form. -/
inductive PrintEv where
  | progress (state : Option String) (percent : Option Int) (description : Option String)
  | logs (excerpt : String)
  | finishedOk
  | finishedBad (state : Option String) (err : Option String)

/-- The final summary line printed for a terminal record. -/
def finalEv (j : JobRec) : PrintEv :=
  if j.state == some "SUCCESS" then .finishedOk
  else .finishedBad j.state (pyOrStr j.error j.resultEncodingError)

/-- The fresh log excerpt to print, if any: `logs and logs != last_excerpt`
(a `None` or empty excerpt is falsy). -/
def logNew (lastExc excerpt : Option String) : Option String :=
  match excerpt with
  | some l => if (l != "") && (some l != lastExc) then some l else none
  | none => none

/-- The log print event, when there is a fresh excerpt. -/
def logEvsOf : Option String → List PrintEv
  | some l => [PrintEv.logs l]
  | none => []

/-- The updated `last_excerpt` state. -/
def lastExcUpd : Option String → Option String → Option String
  | some l, _ => some l
  | none, lastExc => lastExc

/-- The polling loop of `watch_job`.  `js` lists the records successive
polls return; the other arguments are the `last_percent`, `last_desc` and
`last_excerpt` state.  Produces the print events and the returned record
(`none` if no fed record is terminal, i.e. the real loop would still be
polling). -/
def watch_job_go : List JobRec → Option Int → Option String → Option String →
    List PrintEv × Option JobRec
  | [], _, _, _ => ([], none)
  | j :: rest, lastPct, lastDesc, lastExc =>
    let changed : Bool := (j.percent != lastPct) || (j.description != lastDesc)
    let progEvs := if changed then [PrintEv.progress j.state j.percent j.description] else []
    let lastPct' := if changed then j.percent else lastPct
    let lastDesc' := if changed then j.description else lastDesc
    let ln := logNew lastExc j.logsExcerpt
    if isTerminal j then
      (progEvs ++ logEvsOf ln ++ [finalEv j], some j)
    else
      let r := watch_job_go rest lastPct' lastDesc' (lastExcUpd ln lastExc)
      (progEvs ++ logEvsOf ln ++ r.1, r.2)

/-- Model of `watch_job(job_id)` (initial `last_* = None`). -/
def watch_job (js : List JobRec) : List PrintEv × Option JobRec :=
  watch_job_go js none none none

/-- The prefix of poll results the loop actually consumes: everything up to
and including the first terminal record. -/
def consumed : List JobRec → List JobRec
  | [] => []
  | j :: rest => j :: (if isTerminal j then [] else consumed rest)

/-- The `(percent, description)` pair of a record, the state `watch_job`
deduplicates progress lines on. -/
def pairOf (j : JobRec) : Option Int × Option String := (j.percent, j.description)

/-- The dedup pairs of the progress lines among a list of print events. -/
def progressPairs : List PrintEv → List (Option Int × Option String)
  | [] => []
  | .progress _ p d :: rest => (p, d) :: progressPairs rest
  | _ :: rest => progressPairs rest

/-- RPC operations issued by the reconciler, in order. -/
inductive Op where
  | dockerStatus
  | appQuery (name : String)
  | appConfig (name : String)
  | appUpdate (name : String) (payload : Doc)
  | appCreate (payload : Doc)
  | watchJob (jobId : Int)

def isCreateOp : Op → Bool
  | .appCreate _ => true
  | _ => false

def isUpdateOp : Op → Bool
  | .appUpdate _ _ => true
  | _ => false

/-- The one status line `deploy_app` prints per definition. -/
inductive StatusLine where
  | update (name : String)
  | skip (name : String)
  | create (name : String)

/-- Oracle for the RPC results one `deploy_app` run observes:
the `app.query` result list, the `app.config` result, and the job ids
`app.update` / `app.create` return. -/
structure DeployEnv where
  queryResult : List Doc
  configResult : Doc
  updateJobId : Int
  createJobId : Int

/-- Model of `update_app(app_name, compose, desired_spec)`: wrap the spec
(compose mode puts the full document under `custom_compose_config`,
non-compose mode sends an empty `values` payload), call `app.update`, and
watch the returned job. -/
def update_app (app_name : String) (compose : Bool) (desired_spec : Doc)
    (updateJobId : Int) : List Op :=
  let payload :=
    if compose then Doc.obj [("custom_compose_config", desired_spec)]
    else Doc.obj [("values", Doc.obj [])]
  [Op.appUpdate app_name payload, Op.watchJob updateJobId]

/-- Model of `deploy_app(file_path, is_compose)` after parsing:
`app_name` is the file stem, `desired_config` the parsed document.
`app.query` truthiness decides existence; an existing app is compared via
`json_equivalent` and updated or skipped; a missing app is created (compose
mode wraps the document, adding the `custom_app` marker) and its job
watched. -/
def deploy_app (app_name : String) (desired_config : Doc) (is_compose : Bool)
    (env : DeployEnv) : List Op × StatusLine :=
  match env.queryResult with
  | _ :: _ =>
      if ! json_equivalent desired_config env.configResult then
        ([Op.appQuery app_name, Op.appConfig app_name] ++
           update_app app_name is_compose desired_config env.updateJobId,
         StatusLine.update app_name)
      else
        ([Op.appQuery app_name, Op.appConfig app_name], StatusLine.skip app_name)
  | [] =>
      if is_compose then
        ([Op.appQuery app_name,
          Op.appCreate (Doc.obj [("app_name", Doc.str app_name),
                                 ("custom_app", Doc.bool true),
                                 ("custom_compose_config", desired_config)]),
          Op.watchJob env.createJobId],
         StatusLine.create app_name)
      else
        ([Op.appQuery app_name, Op.appCreate desired_config, Op.watchJob env.createJobId],
         StatusLine.create app_name)

/-- Python `repr` of a string status (simple statuses contain no quotes). -/
def pyReprStr (s : String) : String :=
  String.singleton (Char.ofNat 39) ++ s ++ String.singleton (Char.ofNat 39)

/-- Python `repr` of `status.get("status")`: `None` or a quoted string. -/
def pyReprOptStr : Option String → String
  | none => "None"
  | some s => pyReprStr s

/-- Model of `validate_truenas()`: `st` is the `status` field of the
`docker.status` result.  `RUNNING` passes; `UNCONFIGURED` aborts with its
own message; anything else aborts with the generic message. -/
def validate_truenas (st : Option String) : Except String Unit :=
  if st = some "RUNNING" then .ok ()
  else if st = some "UNCONFIGURED" then
    .error "Docker Application service is UNCONFIGURED. Configure it and try again."
  else
    .error ("Docker Application service is not healthy (status=" ++ pyReprOptStr st ++ ").")

/-- One definition file of the batch: name (file stem), parsed document, and
the RPC oracle for its `deploy_app` run. -/
structure DefnFile where
  name : String
  desired : Doc
  env : DeployEnv

/-- Model of the script's main body: open the session, call
`validate_truenas` (one `docker.status` RPC; a `SystemExit` aborts the whole
run), then deploy every file of the sorted directory listing with
`is_compose=True`. -/
def runMain (st : Option String) (defs : List DefnFile) :
    List Op × Except String Unit :=
  match validate_truenas st with
  | .error e => ([Op.dockerStatus], .error e)
  | .ok _ =>
      (Op.dockerStatus :: (defs.map (fun d => (deploy_app d.name d.desired true d.env).1)).flatten,
       .ok ())

mutual

/-- `Reorder a b`: `b` is obtained from `a` purely by reordering mapping
entries and/or sequence elements, at any nesting depth — the documents that
differ "only in key order or list order". -/
inductive Reorder : Doc → Doc → Prop where
  | null : Reorder .null .null
  | bool (b : Bool) : Reorder (.bool b) (.bool b)
  | int (n : Int) : Reorder (.int n) (.int n)
  | str (s : String) : Reorder (.str s) (.str s)
  | arr {xs zs ys : List Doc} :
      ReorderList xs zs → zs.Perm ys → Reorder (.arr xs) (.arr ys)
  | obj {kvs zs kvs' : List (String × Doc)} :
      ReorderKvs kvs zs → zs.Perm kvs' → Reorder (.obj kvs) (.obj kvs')

/-- Pointwise `Reorder` on sequences. -/
inductive ReorderList : List Doc → List Doc → Prop where
  | nil : ReorderList [] []
  | cons {x y : Doc} {xs ys : List Doc} :
      Reorder x y → ReorderList xs ys → ReorderList (x :: xs) (y :: ys)

/-- Pointwise key-preserving `Reorder` on mapping entries. -/
inductive ReorderKvs : List (String × Doc) → List (String × Doc) → Prop where
  | nil : ReorderKvs [] []
  | cons {k : String} {v w : Doc} {kvs kws : List (String × Doc)} :
      Reorder v w → ReorderKvs kvs kws → ReorderKvs ((k, v) :: kvs) ((k, w) :: kws)

end

theorem progressPairs_append (a b : List PrintEv) :
    progressPairs (a ++ b) = progressPairs a ++ progressPairs b := by
  induction a with
  | nil => rfl
  | cons e rest ih => cases e <;> simp [progressPairs, ih]

theorem watch_job_go_consumed (js : List JobRec) :
    ∀ lp ld le, watch_job_go js lp ld le = watch_job_go (consumed js) lp ld le := by
  induction js with
  | nil => intro lp ld le; rfl
  | cons j rest ih =>
      intro lp ld le
      by_cases h : isTerminal j = true
      · simp [watch_job_go, consumed, h]
      · simp only [watch_job_go, consumed, h, Bool.false_eq_true, if_false, if_neg]
        simp [ih]

theorem progressPairs_logEvsOf (ln : Option String) : progressPairs (logEvsOf ln) = [] := by
  cases ln <;> rfl

theorem progressPairs_finalEv (j : JobRec) : progressPairs [finalEv j] = [] := by
  unfold finalEv
  split <;> rfl

theorem watch_job_go_destutter (js : List JobRec) :
    ∀ lp ld le,
      (lp, ld) :: progressPairs (watch_job_go js lp ld le).1 =
        List.destutter' Ne (lp, ld) ((consumed js).map pairOf) := by
  induction js with
  | nil => intro lp ld le; rfl
  | cons j rest ih =>
      intro lp ld le
      by_cases hc : ((j.percent != lp) || (j.description != ld)) = true
      · have hne : Ne ((lp, ld) : Option Int × Option String) (j.percent, j.description) := by
          simp only [bne_iff_ne, Bool.or_eq_true, ne_eq] at hc
          intro h
          rw [Prod.mk.injEq] at h
          rcases hc with hc | hc
          · exact hc h.1.symm
          · exact hc h.2.symm
        by_cases ht : isTerminal j = true
        · simp only [watch_job_go, consumed, ht, if_true, hc, List.map_cons, List.map_nil,
                     pairOf, List.destutter'_cons_pos _ hne, List.destutter'_nil,
                     List.cons_append, List.nil_append, progressPairs, progressPairs_append,
                     progressPairs_logEvsOf, progressPairs_finalEv, List.append_nil]
        · simp only [watch_job_go, consumed, ht, Bool.false_eq_true, if_false, hc, if_true,
                     List.map_cons, pairOf, List.destutter'_cons_pos _ hne,
                     List.cons_append, List.nil_append, progressPairs, progressPairs_append,
                     progressPairs_logEvsOf, List.append_nil]
          rw [← ih j.percent j.description (lastExcUpd (logNew le j.logsExcerpt) le)]
      · have hpe : j.percent = lp := by
          simp only [Bool.or_eq_true, bne_iff_ne, ne_eq] at hc
          push_neg at hc
          exact hc.1
        have hde : j.description = ld := by
          simp only [Bool.or_eq_true, bne_iff_ne, ne_eq] at hc
          push_neg at hc
          exact hc.2
        have hne : ¬ Ne ((lp, ld) : Option Int × Option String) (j.percent, j.description) := by
          simp [hpe, hde]
        by_cases ht : isTerminal j = true
        · simp only [watch_job_go, consumed, ht, if_true, hc, Bool.false_eq_true, if_false,
                     List.map_cons, List.map_nil, pairOf, List.destutter'_cons_neg _ hne,
                     List.destutter'_nil, List.nil_append, progressPairs, progressPairs_append,
                     progressPairs_logEvsOf, progressPairs_finalEv, List.append_nil]
        · simp only [watch_job_go, consumed, ht, Bool.false_eq_true, if_false, hc,
                     List.map_cons, pairOf, List.destutter'_cons_neg _ hne, List.nil_append,
                     progressPairs, progressPairs_append, progressPairs_logEvsOf,
                     List.append_nil]
          rw [← ih lp ld (lastExcUpd (logNew le j.logsExcerpt) le)]

theorem watch_job_go_first_terminal (js : List JobRec) :
    ∀ lp ld le (k : Nat) (h1 : k < js.length),
      (∀ i (hi : i < k), isTerminal (js.get ⟨i, Nat.lt_trans hi h1⟩) = false) →
      isTerminal (js.get ⟨k, h1⟩) = true →
      (watch_job_go js lp ld le).2 = some (js.get ⟨k, h1⟩) ∧
        ∃ evs, (watch_job_go js lp ld le).1 = evs ++ [finalEv (js.get ⟨k, h1⟩)] := by
  induction js with
  | nil => intro lp ld le k h1; exact absurd h1 (by simp)
  | cons j rest ih =>
      intro lp ld le k h1 hpre hterm
      cases k with
      | zero =>
          simp only [List.get] at hterm ⊢
          constructor
          · simp [watch_job_go, hterm]
          · refine ⟨(if ((j.percent != lp) || (j.description != ld)) = true then
                [PrintEv.progress j.state j.percent j.description] else []) ++
                logEvsOf (logNew le j.logsExcerpt), ?_⟩
            simp [watch_job_go, hterm]
      | succ k =>
          have hj : isTerminal j = false := hpre 0 (Nat.succ_pos k)
          have h1' : k < rest.length := Nat.lt_of_succ_lt_succ h1
          have hpre' : ∀ i (hi : i < k), isTerminal (rest.get ⟨i, Nat.lt_trans hi h1'⟩) = false :=
            fun i hi => hpre (i + 1) (Nat.succ_lt_succ hi)
          have hterm' : isTerminal (rest.get ⟨k, h1'⟩) = true := hterm
          obtain ⟨ih2, evs, ihevs⟩ :=
            ih (if ((j.percent != lp) || (j.description != ld)) = true then j.percent else lp)
               (if ((j.percent != lp) || (j.description != ld)) = true then j.description else ld)
               (lastExcUpd (logNew le j.logsExcerpt) le) k h1' hpre' hterm'
          constructor
          · simpa [watch_job_go, hj] using ih2
          · refine ⟨(if ((j.percent != lp) || (j.description != ld)) = true then
                [PrintEv.progress j.state j.percent j.description] else []) ++
                logEvsOf (logNew le j.logsExcerpt) ++ evs, ?_⟩
            simp only [watch_job_go, hj, Bool.false_eq_true, if_false]
            simp only [List.get] at ihevs ⊢
            rw [ihevs]
            simp [List.append_assoc]

/-- The nested-list document `[[2, 1], [1, 3]]`. -/
def x0 : Doc := .arr [.arr [.int 2, .int 1], .arr [.int 1, .int 3]]

/-- `x0` with the first inner list reordered: `[[1, 2], [1, 3]]`. -/
def x1 : Doc := .arr [.arr [.int 1, .int 2], .arr [.int 1, .int 3]]

/-- C2: the claim "`canonicalize` is idempotent:
`canonicalize(canonicalize(x)) == canonicalize(x)` for all documents x" fails
at `x0 = [[2, 1], [1, 3]]`.  Lists are sorted by the serialization of their
elements BEFORE those elements are canonicalized, so the first pass orders
the inner lists by their original serializations (`"[2, 1]"` > `"[1, 3]"`)
and then rewrites them; the second pass re-sorts by the new serializations
and produces a different order. -/
theorem canonicalize_idempotence_fails :
    docEq (canonicalize (canonicalize x0)) (canonicalize x0) = false ∧
    canonicalize x0 = .arr [.arr [.int 1, .int 3], .arr [.int 1, .int 2]] ∧
    canonicalize (canonicalize x0) = .arr [.arr [.int 1, .int 2], .arr [.int 1, .int 3]] :=
  ⟨rfl, rfl, rfl⟩

/-- C3: `x1` differs from `x0` only in the order of the elements of the
first inner list (witnessed by `Reorder x0 x1`), yet
`json_equivalent x0 x1 = false`: the claim "list order never affects the
result, at any nesting depth" fails, for the same reason `canonicalize` is
not idempotent.  (The claim's own example and reflexivity/symmetry do hold;
the last three conjuncts record this.) -/
theorem json_equivalent_list_reorder_fails :
    Reorder x0 x1 ∧ json_equivalent x0 x1 = false ∧
    json_equivalent (Doc.obj [("a", Doc.int 1), ("b", Doc.int 2)])
      (Doc.obj [("b", Doc.int 2), ("a", Doc.int 1)]) = true ∧
    json_equivalent x0 x0 = true ∧
    json_equivalent x1 x0 = false := by
  refine ⟨?_, rfl, rfl, rfl, rfl⟩
  refine @Reorder.arr _ [.arr [.int 1, .int 2], .arr [.int 1, .int 3]] _ ?_ (List.Perm.refl _)
  refine ReorderList.cons ?_ (ReorderList.cons ?_ ReorderList.nil)
  · exact @Reorder.arr _ [.int 2, .int 1] _
      (ReorderList.cons (Reorder.int 2) (ReorderList.cons (Reorder.int 1) ReorderList.nil))
      (List.Perm.swap (Doc.int 1) (Doc.int 2) [])
  · exact @Reorder.arr _ [.int 1, .int 3] _
      (ReorderList.cons (Reorder.int 1) (ReorderList.cons (Reorder.int 3) ReorderList.nil))
      (List.Perm.refl _)

/-- C10: `canonicalize` is structure-preserving: scalars are returned
unchanged; a mapping becomes a mapping whose entries are a permutation of
the original entries with values canonicalized (hence exactly the same key
multiset); a sequence becomes a sequence that is a permutation of the
canonicalized elements (same length, same multiset). -/
theorem canonicalize_structure_preserving :
    (canonicalize .null = .null) ∧
    (∀ b, canonicalize (.bool b) = .bool b) ∧
    (∀ n, canonicalize (.int n) = .int n) ∧
    (∀ s, canonicalize (.str s) = .str s) ∧
    (∀ xs : List Doc, ∃ ys, canonicalize (.arr xs) = .arr ys ∧
        ys.Perm (xs.map canonicalize)) ∧
    (∀ kvs : List (String × Doc), ∃ kvs',
        canonicalize (.obj kvs) = .obj kvs' ∧
        kvs'.Perm (kvs.map (fun kv => (kv.1, canonicalize kv.2))) ∧
        (kvs'.map Prod.fst).Perm (kvs.map Prod.fst)) := by
  refine ⟨rfl, fun b => rfl, fun n => rfl, fun s => rfl, ?_, ?_⟩
  · intro xs
    refine ⟨(insertionSortB sortKeyLE (decorate xs)).map Prod.snd, rfl, ?_⟩
    have h := (insertionSortB_perm sortKeyLE (decorate xs)).map Prod.snd
    have h2 : (decorate xs).map Prod.snd = xs.map canonicalize := by
      rw [decorate_eq_map, List.map_map]
      rfl
    rwa [h2] at h
  · intro kvs
    refine ⟨insertionSortB docKeyLE (canonKvs kvs), rfl, ?_, ?_⟩
    · have h := insertionSortB_perm docKeyLE (canonKvs kvs)
      nth_rewrite 2 [canonKvs_eq_map] at h
      exact h
    · have h := (insertionSortB_perm docKeyLE (canonKvs kvs)).map Prod.fst
      have h3 : (canonKvs kvs).map Prod.fst = kvs.map Prod.fst := by
        rw [canonKvs_eq_map, List.map_map]
        rfl
      rwa [h3] at h

/-- A transport that raises a transient "Connection closed" error on every
attempt. -/
def closedOutcome : Nat → RpcOutcome Unit := fun _ => RpcOutcome.err "Connection closed"

/-- C1: the claim "exhaustion of the retry budget propagates an error to the
caller — `call` never returns normally in that case" fails.  With the
default budget (`_retries=1`) and a transport raising a transient
"Connection closed" error on both attempts, the `for` loop exhausts, Python
falls off the loop, and `call` returns `None` normally: no exception reaches
the caller. -/
theorem call_exhausted_transients_returns_none :
    TNSession.call closedOutcome 1 =
      (CallResult.ret none,
       [SessionEv.ensureOpen, SessionEv.rpcAttempt 0, SessionEv.sleep 0, SessionEv.close,
        SessionEv.reopen, SessionEv.rpcAttempt 1, SessionEv.sleep 1, SessionEv.close,
        SessionEv.reopen]) := rfl

/-- C7: if the transport raises an error whose message is transient (e.g.
contains "closed") on attempt 0 and succeeds with `v` on attempt 1, then
`call` sleeps, closes and reopens the session, retries, and returns the
successful result — no error reaches the caller. -/
theorem call_reconnects_after_transient {α : Type} (v : α) (m : String)
    (outcome : Nat → RpcOutcome α)
    (h0 : outcome 0 = RpcOutcome.err m) (ht : isTransient m = true)
    (h1 : outcome 1 = RpcOutcome.ok v) :
    TNSession.call outcome 1 =
      (CallResult.ret (some v),
       [SessionEv.ensureOpen, SessionEv.rpcAttempt 0, SessionEv.sleep 0, SessionEv.close,
        SessionEv.reopen, SessionEv.rpcAttempt 1]) := by
  simp [TNSession.call, callLoop, h0, h1, ht]

/-- A transport raising "Connection closed" on the first attempt and
succeeding on the second. -/
def reconnectOutcome : Nat → RpcOutcome Int :=
  fun i => if i = 0 then RpcOutcome.err "Connection closed" else RpcOutcome.ok 42

theorem call_reconnects_after_transient_witness :
    TNSession.call reconnectOutcome 1 =
      (CallResult.ret (some 42),
       [SessionEv.ensureOpen, SessionEv.rpcAttempt 0, SessionEv.sleep 0, SessionEv.close,
        SessionEv.reopen, SessionEv.rpcAttempt 1]) :=
  call_reconnects_after_transient 42 "Connection closed" reconnectOutcome rfl rfl rfl

/-- The job-record sequence of the claim: percent 0 → 50 → 50 → 100, then
state SUCCESS. -/
def exampleJobs : List JobRec :=
  [⟨some "RUNNING", some 0, none, none, none, none⟩,
   ⟨some "RUNNING", some 50, none, none, none, none⟩,
   ⟨some "RUNNING", some 50, none, none, none, none⟩,
   ⟨some "RUNNING", some 100, none, none, none, none⟩,
   ⟨some "SUCCESS", some 100, none, none, none, none⟩]

/-- C4: `watch_job` (i) consults only the records up to and including the
first terminal one — no further poll; (ii) the `(percent, description)`
pairs of its progress lines are exactly the destuttering of the consumed
pairs against the last printed pair (seeded `(None, None)`), i.e. a line is
printed iff percent or description changed; (iii) on the first record with
state in SUCCESS/FAILED/ABORTED it prints a final summary line and returns
that record; (iv) on the 0 → 50 → 50 → 100 → SUCCESS sequence it prints
progress at 0, 50, 100 (suppressing the duplicate 50) and the success line,
returning the SUCCESS record. -/
theorem watch_job_correct :
    (∀ js : List JobRec, watch_job js = watch_job (consumed js)) ∧
    (∀ js : List JobRec,
      ((none, none) : Option Int × Option String) :: progressPairs (watch_job js).1 =
        List.destutter' Ne (none, none) ((consumed js).map pairOf)) ∧
    (∀ (js : List JobRec) (k : Nat) (h1 : k < js.length),
      (∀ i (hi : i < k), isTerminal (js.get ⟨i, Nat.lt_trans hi h1⟩) = false) →
      isTerminal (js.get ⟨k, h1⟩) = true →
      (watch_job js).2 = some (js.get ⟨k, h1⟩) ∧
        ∃ evs, (watch_job js).1 = evs ++ [finalEv (js.get ⟨k, h1⟩)]) ∧
    (watch_job exampleJobs =
      ([PrintEv.progress (some "RUNNING") (some 0) none,
        PrintEv.progress (some "RUNNING") (some 50) none,
        PrintEv.progress (some "RUNNING") (some 100) none,
        PrintEv.finishedOk],
       some ⟨some "SUCCESS", some 100, none, none, none, none⟩)) := by
  refine ⟨fun js => watch_job_go_consumed js none none none,
          fun js => watch_job_go_destutter js none none none,
          fun js k h1 hpre hterm => watch_job_go_first_terminal js none none none k h1 hpre hterm,
          rfl⟩

theorem watch_job_correct_witness :
    (watch_job exampleJobs).2 = some (exampleJobs.get ⟨4, by decide⟩) ∧
    ∃ evs, (watch_job exampleJobs).1 = evs ++ [finalEv (exampleJobs.get ⟨4, by decide⟩)] :=
  watch_job_correct.2.2.1 exampleJobs 4 (by decide)
    (fun i hi => by
      have h4 : i = 0 ∨ i = 1 ∨ i = 2 ∨ i = 3 := by omega
      rcases h4 with rfl | rfl | rfl | rfl <;> rfl)
    rfl

/-- C5: for a definition whose application exists remotely
(`app.query` returned a non-empty list) and whose current `app.config`
result is equivalent under canonicalization to the desired document,
`deploy_app` performs zero `app.create` and zero `app.update` calls, emits
the SKIP status line, and issues only the query and config reads. -/
theorem deploy_skip_when_equivalent (app_name : String) (desired : Doc) (is_compose : Bool)
    (env : DeployEnv) (hex : env.queryResult ≠ [])
    (heq : json_equivalent desired env.configResult = true) :
    (deploy_app app_name desired is_compose env).1.countP isCreateOp = 0 ∧
    (deploy_app app_name desired is_compose env).1.countP isUpdateOp = 0 ∧
    (deploy_app app_name desired is_compose env).2 = StatusLine.skip app_name ∧
    (deploy_app app_name desired is_compose env).1 =
      [Op.appQuery app_name, Op.appConfig app_name] := by
  obtain ⟨q, qs, hq⟩ := List.exists_cons_of_ne_nil hex
  simp [deploy_app, hq, heq, isCreateOp, isUpdateOp, List.countP_cons]

/-- Oracle for an existing app whose config matches the desired document. -/
def skipEnv : DeployEnv :=
  ⟨[Doc.obj []], Doc.obj [("image", Doc.str "nginx")], 5, 6⟩

theorem deploy_skip_when_equivalent_witness :
    (deploy_app "web" (Doc.obj [("image", Doc.str "nginx")]) true skipEnv).1.countP
        isCreateOp = 0 ∧
    (deploy_app "web" (Doc.obj [("image", Doc.str "nginx")]) true skipEnv).1.countP
        isUpdateOp = 0 ∧
    (deploy_app "web" (Doc.obj [("image", Doc.str "nginx")]) true skipEnv).2 =
      StatusLine.skip "web" ∧
    (deploy_app "web" (Doc.obj [("image", Doc.str "nginx")]) true skipEnv).1 =
      [Op.appQuery "web", Op.appConfig "web"] :=
  deploy_skip_when_equivalent "web" (Doc.obj [("image", Doc.str "nginx")]) true skipEnv
    (by simp [skipEnv]) rfl

/-- C6: for a compose-mode definition whose application does not exist
remotely (`app.query` returned the empty list), `deploy_app` issues exactly
one `app.create` whose payload holds the app name, the `custom_app = true`
marker and the full parsed document under `custom_compose_config`, then
watches the returned job id; no `app.update` is issued. -/
theorem deploy_creates_when_absent (app_name : String) (desired : Doc) (env : DeployEnv)
    (hempty : env.queryResult = []) :
    deploy_app app_name desired true env =
      ([Op.appQuery app_name,
        Op.appCreate (Doc.obj [("app_name", Doc.str app_name), ("custom_app", Doc.bool true),
                               ("custom_compose_config", desired)]),
        Op.watchJob env.createJobId],
       StatusLine.create app_name) ∧
    (deploy_app app_name desired true env).1.countP isCreateOp = 1 ∧
    (deploy_app app_name desired true env).1.countP isUpdateOp = 0 := by
  refine ⟨?_, ?_, ?_⟩ <;> simp [deploy_app, hempty, isCreateOp, isUpdateOp, List.countP_cons]

/-- Oracle for an absent app. -/
def createEnv : DeployEnv := ⟨[], Doc.null, 0, 9⟩

/-- The spec example document
`{"services": {"web": {"image": "nginx"}}}`. -/
def composeDoc : Doc :=
  .obj [("services", .obj [("web", .obj [("image", .str "nginx")])])]

theorem deploy_creates_when_absent_witness :
    deploy_app "web" composeDoc true createEnv =
      ([Op.appQuery "web",
        Op.appCreate (Doc.obj [("app_name", Doc.str "web"), ("custom_app", Doc.bool true),
                               ("custom_compose_config", composeDoc)]),
        Op.watchJob createEnv.createJobId],
       StatusLine.create "web") ∧
    (deploy_app "web" composeDoc true createEnv).1.countP isCreateOp = 1 ∧
    (deploy_app "web" composeDoc true createEnv).1.countP isUpdateOp = 0 :=
  deploy_creates_when_absent "web" composeDoc createEnv rfl

/-- C8: `update_app` in compose mode sends the full desired document wrapped
under `custom_compose_config` to `app.update`; in non-compose mode it sends
an empty `values` payload regardless of the desired spec; in both modes it
then watches the job id returned by `app.update`. -/
theorem update_app_payloads :
    (∀ (name : String) (d : Doc) (j : Int),
      update_app name true d j =
        [Op.appUpdate name (Doc.obj [("custom_compose_config", d)]), Op.watchJob j]) ∧
    (∀ (name : String) (d d' : Doc) (j : Int),
      update_app name false d j = update_app name false d' j) ∧
    (∀ (name : String) (d : Doc) (j : Int),
      update_app name false d j =
        [Op.appUpdate name (Doc.obj [("values", Doc.obj [])]), Op.watchJob j]) :=
  ⟨fun _ _ _ => rfl, fun _ _ _ _ => rfl, fun _ _ _ => rfl⟩

theorem generic_msg_ne_unconf (x : String) :
    ("Docker Application service is not healthy (status=" ++ x ++ ").") ≠
    "Docker Application service is UNCONFIGURED. Configure it and try again." := by
  intro h
  have hd := congrArg String.data h
  rw [String.data_append, String.data_append] at hd
  have h31 := congrArg (fun l => l.take 31) hd
  simp only at h31
  rw [List.take_append_of_le_length (by simp), List.take_append_of_le_length (by decide)]
    at h31
  exact absurd h31 (by decide)

/-- C9: `validate_truenas` runs before any definition is processed and
succeeds iff `docker.status` reports `RUNNING`.  On any other status the
whole run aborts with a fatal error before a single `app.query` /
`app.create` / `app.update` is issued (the trace is just the one
`docker.status` call), with a distinct message reserved for `UNCONFIGURED`;
on `RUNNING` the run proceeds. -/
theorem docker_gate_aborts_run :
    (∀ st, validate_truenas st = Except.ok () ↔ st = some "RUNNING") ∧
    (∀ st defs, st ≠ some "RUNNING" →
      ∃ e, runMain st defs = ([Op.dockerStatus], Except.error e)) ∧
    (∀ defs, (runMain (some "RUNNING") defs).2 = Except.ok ()) ∧
    (∀ st defs, ∃ rest, (runMain st defs).1 = Op.dockerStatus :: rest) ∧
    (validate_truenas (some "UNCONFIGURED") =
      Except.error "Docker Application service is UNCONFIGURED. Configure it and try again.") ∧
    (∀ st, st ≠ some "RUNNING" → st ≠ some "UNCONFIGURED" →
      validate_truenas st =
        Except.error ("Docker Application service is not healthy (status=" ++
          pyReprOptStr st ++ ").")) ∧
    (∀ st, st ≠ some "UNCONFIGURED" →
      validate_truenas st ≠
        Except.error "Docker Application service is UNCONFIGURED. Configure it and try again.") := by
  refine ⟨?_, ?_, ?_, ?_, rfl, ?_, ?_⟩
  · intro st
    constructor
    · intro h
      by_contra hne
      rw [validate_truenas, if_neg hne] at h
      by_cases hu : st = some "UNCONFIGURED"
      · rw [if_pos hu] at h
        exact Except.noConfusion h
      · rw [if_neg hu] at h
        exact Except.noConfusion h
    · intro h
      simp [validate_truenas, h]
  · intro st defs hne
    by_cases hu : st = some "UNCONFIGURED"
    · refine ⟨"Docker Application service is UNCONFIGURED. Configure it and try again.", ?_⟩
      rw [runMain, validate_truenas, if_neg hne, if_pos hu]
    · refine ⟨"Docker Application service is not healthy (status=" ++ pyReprOptStr st ++ ").",
              ?_⟩
      rw [runMain, validate_truenas, if_neg hne, if_neg hu]
  · intro defs
    simp [runMain, validate_truenas]
  · intro st defs
    by_cases hr : st = some "RUNNING"
    · refine ⟨(defs.map (fun d => (deploy_app d.name d.desired true d.env).1)).flatten, ?_⟩
      simp [runMain, validate_truenas, hr]
    · by_cases hu : st = some "UNCONFIGURED"
      · refine ⟨[], ?_⟩
        rw [runMain, validate_truenas, if_neg hr, if_pos hu]
      · refine ⟨[], ?_⟩
        rw [runMain, validate_truenas, if_neg hr, if_neg hu]
  · intro st h1 h2
    rw [validate_truenas, if_neg h1, if_neg h2]
  · intro st hu h
    by_cases hr : st = some "RUNNING"
    · rw [validate_truenas, if_pos hr] at h
      exact Except.noConfusion h
    · rw [validate_truenas, if_neg hr, if_neg hu] at h
      exact generic_msg_ne_unconf (pyReprOptStr st) (Except.error.inj h)

theorem docker_gate_aborts_run_witness :
    (∃ e, runMain (some "STOPPED") [] = ([Op.dockerStatus], Except.error e)) ∧
    validate_truenas (some "STOPPED") ≠
      Except.error "Docker Application service is UNCONFIGURED. Configure it and try again." :=
  ⟨docker_gate_aborts_run.2.1 (some "STOPPED") [] (by decide),
   docker_gate_aborts_run.2.2.2.2.2.2 (some "STOPPED") (by decide)⟩

end TnCompose
